import Mathlib

/-!
# Verification of the metro-file-map `Watcher` orchestration layer

A shallow embedding of `packages/metro-file-map/src/Watcher.js`:
crawl orchestration with single-level fallback, the multi-root watch
startup handshake, event demultiplexing, and the health-check
(liveness probe) state machine, together with proofs of the
specification's claims about them.

JavaScript numbers are modelled as `Nat` (all quantities involved are
nonnegative integers below 2^53, where JS float arithmetic is exact;
the one place the source cares about the boundary, Number.MAX_SAFE_INTEGER,
is modelled explicitly).  Promise scheduling is modelled by explicit
traces of task-completion events.  Fallible operations return `Except`
or `Option`.
-/

namespace MetroFileMap

/-- Character-by-character test that a list starts with a second list.
Models JS `String.prototype.startsWith` (on the decoded characters). -/
def listStartsWith : List Char → List Char → Bool
  | _, [] => true
  | [], _ :: _ => false
  | c :: cs, d :: ds => c = d && listStartsWith cs ds

/-- `strStartsWith s pat` models the JS expression `s.startsWith(pat)`. -/
def strStartsWith (s pat : String) : Bool :=
  listStartsWith s.data pat.data

/-- Characters strictly after the last `/` of a character list (the whole
list when it has no `/`). -/
def afterLastSlash (l : List Char) : List Char :=
  l.foldl (fun acc c => if c = '/' then [] else acc.concat c) []

/-- Models Node's `path.basename` on POSIX relative paths as they occur in
watcher events (no trailing separator): the component after the last `/`. -/
def pathBasename (p : String) : String :=
  ⟨afterLastSlash p.data⟩

/-- The kinds of change events, `ADD_EVENT` / `CHANGE_EVENT` / `DELETE_EVENT`
from `watchers/common.js`. -/
inductive EventKind
  | add
  | change
  | delete
deriving DecidableEq, Repr

/-- A `WatcherBackendChangeEvent` as consumed by the `watcher.on('all', ...)`
handler in `watch()`: its kind and its `relativePath`.  (The metadata payload
is irrelevant to routing and omitted.) -/
structure ChangeEvent where
  event : EventKind
  relativePath : String
deriving DecidableEq, Repr

/-- Where the `on('all')` handler of `watch()` sends one event: to the
health-check observation entry point, silently dropped, or forwarded to the
caller's `onChange`. -/
inductive RoutedAction
  | observe (basename : String)
  | drop
  | forward (change : ChangeEvent)
deriving DecidableEq, Repr

/-- The event demultiplexer installed by `watch()` (Watcher.js lines 210-224):

    const basename = path.basename(change.relativePath);
    if (basename.startsWith(this._options.healthCheckFilePrefix)) {
      if (change.event === ADD_EVENT || change.event === CHANGE_EVENT) {
        ... this._handleHealthCheckObservation(basename);
      }
      return;
    }
    onChange(change);

`stem` is the configured `healthCheckFilePrefix` option. -/
def routeEvent (stem : String) (change : ChangeEvent) : RoutedAction :=
  let basename := pathBasename change.relativePath
  if strStartsWith basename stem then
    if change.event = EventKind.add ∨ change.event = EventKind.change then
      RoutedAction.observe basename
    else
      RoutedAction.drop
  else
    RoutedAction.forward change

/-- A JS `Error` object as used by Watcher.js: only its `message` matters
to the layer under verification. -/
structure JsError where
  message : String
deriving DecidableEq, Repr

/-- Models `Error.prototype.toString()` for an error built by
`new Error(message)` with the default `name` of `"Error"`. -/
def JsError.toString (e : JsError) : String :=
  "Error: " ++ e.message

/-- `HealthCheckResult` from Watcher.js (times in milliseconds, modelled as
`Nat`). -/
inductive HealthCheckResult
  | error (timeout : Nat) (error : JsError) (watcher : Option String)
  | success (timeout : Nat) (timeElapsed : Nat) (watcher : Option String)
  | timeout (timeout : Nat) (watcher : Option String) (pauseReason : Option String)
deriving DecidableEq, Repr

/-- One completion of one of the competing asynchronous tasks inside
`checkHealth` (Watcher.js lines 263-305), with the data the corresponding
handler reads at that moment:
* `timerFires` — the `setTimeout(resolve, timeout)` chain runs, reading
  `this._backends[0]?.getPauseReason()`;
* `writeFails` — the `fs.promises.writeFile` rejection handler runs;
* `writeSucceeds` — the cookie write resolves (its handler does not touch
  the result slot);
* `observed` — the observation promise's handler runs after
  `_handleHealthCheckObservation` resolved it for this call's basename,
  reading `performance.now() - startTime`.
A trace (list) of such events is one possible interleaving of the promise
continuations. -/
inductive RaceEvent
  | timerFires (pauseReason : Option String)
  | writeFails (error : JsError)
  | writeSucceeds
  | observed (timeElapsed : Nat)
deriving DecidableEq, Repr

/-- What one task completion writes into the single-assignment result slot
when the slot is still empty (`none` for the write-success continuation,
which never writes the slot). -/
def raceEventEffect (timeout : Nat) (watcher : Option String) :
    RaceEvent → Option HealthCheckResult
  | RaceEvent.timerFires pauseReason =>
      some (HealthCheckResult.timeout timeout watcher pauseReason)
  | RaceEvent.writeFails e =>
      some (HealthCheckResult.error timeout e watcher)
  | RaceEvent.writeSucceeds => none
  | RaceEvent.observed timeElapsed =>
      some (HealthCheckResult.success timeout timeElapsed watcher)

/-- One handler execution against the result slot: each handler in
`checkHealth` is guarded by `if (!result) { result = ... }`, so a filled
slot is never overwritten. -/
def raceStep (timeout : Nat) (watcher : Option String)
    (result : Option HealthCheckResult) (e : RaceEvent) :
    Option HealthCheckResult :=
  match result with
  | some r => some r
  | none => raceEventEffect timeout watcher e

/-- The value of the result slot of one `checkHealth(timeout)` call after
the task completions in `events` have run, in that order, starting from the
empty slot (`let result: ?HealthCheckResult` is initially unset). -/
def runHealthCheckRace (timeout : Nat) (watcher : Option String)
    (events : List RaceEvent) : Option HealthCheckResult :=
  events.foldl (raceStep timeout watcher) none

/-- Whether a task completion writes the (empty) result slot at all. -/
def isEffective : RaceEvent → Bool
  | RaceEvent.writeSucceeds => false
  | _ => true

theorem raceStep_some (timeout : Nat) (watcher : Option String)
    (r : HealthCheckResult) (es : List RaceEvent) :
    es.foldl (raceStep timeout watcher) (some r) = some r := by
  induction es with
  | nil => rfl
  | cons e es ih => exact ih

theorem isEffective_iff_isSome (timeout : Nat) (watcher : Option String)
    (e : RaceEvent) :
    isEffective e = true ↔ (raceEventEffect timeout watcher e).isSome := by
  cases e <;> simp [isEffective, raceEventEffect]

/-- First writer wins: the slot ends up holding exactly the effect of the
first effective task completion in the trace. -/
theorem runHealthCheckRace_eq_find (timeout : Nat) (watcher : Option String)
    (es : List RaceEvent) :
    runHealthCheckRace timeout watcher es =
      (es.find? isEffective).bind (raceEventEffect timeout watcher) := by
  induction es with
  | nil => rfl
  | cons e es ih =>
    by_cases he : isEffective e = true
    · obtain ⟨r, hr⟩ := Option.isSome_iff_exists.mp
        ((isEffective_iff_isSome timeout watcher e).mp he)
      simp only [runHealthCheckRace, List.foldl_cons, raceStep, hr,
        List.find?_cons_of_pos _ he, Option.some_bind]
      exact raceStep_some timeout watcher r es
    · have hnone : raceEventEffect timeout watcher e = none := by
        cases h : raceEventEffect timeout watcher e with
        | none => rfl
        | some r =>
          exact absurd ((isEffective_iff_isSome timeout watcher e).mpr
            (by rw [h]; rfl)) he
      simp only [runHealthCheckRace, List.foldl_cons, raceStep, hnone,
        List.find?_cons_of_neg _ he]
      exact ih

/-- C1.  Under the sole scheduling assumption that the timer task always
eventually completes (JS `setTimeout` always fires), every `checkHealth`
call produces exactly one `HealthCheckResult` and never throws
(`nullthrows(result)` succeeds); the result is `success` (with the observed
elapsed time) iff the first slot-writing completion is the observation of
the call's own cookie basename, `error` (with the write failure as cause)
iff it is the cookie-write failure, and `timeout` (with the backend's pause
reason) iff it is the timer. -/
theorem checkHealth_returns_exactly_one_result (timeout : Nat)
    (watcher : Option String) (es : List RaceEvent)
    (htimer : ∃ p, RaceEvent.timerFires p ∈ es) :
    (∃ r, runHealthCheckRace timeout watcher es = some r) ∧
    (∀ timeElapsed,
      runHealthCheckRace timeout watcher es =
          some (HealthCheckResult.success timeout timeElapsed watcher) ↔
        es.find? isEffective = some (RaceEvent.observed timeElapsed)) ∧
    (∀ e, runHealthCheckRace timeout watcher es =
          some (HealthCheckResult.error timeout e watcher) ↔
        es.find? isEffective = some (RaceEvent.writeFails e)) ∧
    (∀ p, runHealthCheckRace timeout watcher es =
          some (HealthCheckResult.timeout timeout watcher p) ↔
        es.find? isEffective = some (RaceEvent.timerFires p)) := by
  have hfind : (es.find? isEffective).isSome := by
    rw [List.find?_isSome]
    obtain ⟨p, hp⟩ := htimer
    exact ⟨_, hp, rfl⟩
  obtain ⟨e, he⟩ := Option.isSome_iff_exists.mp hfind
  have heff := List.find?_some he
  rw [runHealthCheckRace_eq_find, he]
  cases e <;> simp_all [raceEventEffect, isEffective]

/-- Closed instantiation of `checkHealth_returns_exactly_one_result` on the
trace "write succeeds, cookie observed after 5 ms, timer fires later". -/
theorem checkHealth_returns_exactly_one_result_witness :
    (∃ r, runHealthCheckRace 50 (some "watchman")
      [RaceEvent.writeSucceeds, RaceEvent.observed 5,
        RaceEvent.timerFires none] = some r) ∧
    runHealthCheckRace 50 (some "watchman")
        [RaceEvent.writeSucceeds, RaceEvent.observed 5,
          RaceEvent.timerFires none] =
      some (HealthCheckResult.success 50 5 (some "watchman")) := by
  have h := checkHealth_returns_exactly_one_result 50 (some "watchman")
    [RaceEvent.writeSucceeds, RaceEvent.observed 5, RaceEvent.timerFires none]
    ⟨none, by simp⟩
  exact ⟨h.1, (h.2.1 5).mpr (by decide)⟩

/-- C5.  The result slot is single-assignment: the value recorded by the
first effective task completion is the value of the slot, and any further
task completions (`es₂`) leave an already-recorded result unchanged —
later writers are no-ops and there is no retraction. -/
theorem checkHealth_result_slot_single_assignment (timeout : Nat)
    (watcher : Option String) (es₁ es₂ : List RaceEvent)
    (r : HealthCheckResult)
    (h : runHealthCheckRace timeout watcher es₁ = some r) :
    runHealthCheckRace timeout watcher (es₁ ++ es₂) = some r ∧
    runHealthCheckRace timeout watcher es₁ =
      (es₁.find? isEffective).bind (raceEventEffect timeout watcher) := by
  constructor
  · have : runHealthCheckRace timeout watcher (es₁ ++ es₂) =
        es₂.foldl (raceStep timeout watcher)
          (runHealthCheckRace timeout watcher es₁) := by
      simp [runHealthCheckRace, List.foldl_append]
    rw [this, h]
    exact raceStep_some timeout watcher r es₂
  · exact runHealthCheckRace_eq_find timeout watcher es₁

/-- Closed instantiation of `checkHealth_result_slot_single_assignment`:
an observation recorded first is not retracted by a later timer firing or
write failure. -/
theorem checkHealth_result_slot_single_assignment_witness :
    runHealthCheckRace 10 none
        ([RaceEvent.observed 3] ++
          [RaceEvent.timerFires none, RaceEvent.writeFails ⟨"EACCES"⟩]) =
      some (HealthCheckResult.success 10 3 none) :=
  (checkHealth_result_slot_single_assignment 10 none [RaceEvent.observed 3]
    [RaceEvent.timerFires none, RaceEvent.writeFails ⟨"EACCES"⟩]
    (HealthCheckResult.success 10 3 none) (by decide)).1

/-- C2, counterexample.  The claim says every event that is not
(health-check-named ∧ add-or-change) is forwarded to `onChange`.  But the
handler's early `return` sits inside the `startsWith` branch: a `delete`
event whose basename starts with the health-check stem is silently dropped,
neither observed nor forwarded. -/
theorem routeEvent_health_check_delete_not_forwarded :
    strStartsWith (pathBasename "hc-1") "hc" = true ∧
    routeEvent "hc" ⟨EventKind.delete, "hc-1"⟩ = RoutedAction.drop ∧
    routeEvent "hc" ⟨EventKind.delete, "hc-1"⟩ ≠
      RoutedAction.forward ⟨EventKind.delete, "hc-1"⟩ := by
  decide

/-- C2, amended.  For every event delivered by a ready backend: if its
basename starts with the health-check stem and its kind is add or change it
is routed to the health-check observation handler and not forwarded; if its
basename starts with the stem but its kind is not add-or-change it is
dropped (neither observed nor forwarded); and every event whose basename
does not start with the stem is forwarded to `onChange` unfiltered. -/
theorem routeEvent_demux_spec (stem : String) (c : ChangeEvent) :
    (strStartsWith (pathBasename c.relativePath) stem = false →
      routeEvent stem c = RoutedAction.forward c) ∧
    (strStartsWith (pathBasename c.relativePath) stem = true →
      (c.event = EventKind.add ∨ c.event = EventKind.change →
        routeEvent stem c = RoutedAction.observe (pathBasename c.relativePath)) ∧
      (¬(c.event = EventKind.add ∨ c.event = EventKind.change) →
        routeEvent stem c = RoutedAction.drop)) := by
  unfold routeEvent
  refine ⟨fun h => ?_, fun h => ⟨fun hk => ?_, fun hk => ?_⟩⟩ <;>
    simp only [h, Bool.false_eq_true, if_false, if_true]
  · exact if_pos hk
  · exact if_neg hk

/-- Closed instantiation of `routeEvent_demux_spec`: an add event for a
cookie file is observed, an ordinary change event is forwarded. -/
theorem routeEvent_demux_spec_witness :
    routeEvent "hc" ⟨EventKind.add, "dir/hc-7"⟩ =
      RoutedAction.observe (pathBasename "dir/hc-7") ∧
    routeEvent "hc" ⟨EventKind.change, "app.js"⟩ =
      RoutedAction.forward ⟨EventKind.change, "app.js"⟩ :=
  ⟨((routeEvent_demux_spec "hc" ⟨EventKind.add, "dir/hc-7"⟩).2 (by decide)).1
      (Or.inl rfl),
    (routeEvent_demux_spec "hc" ⟨EventKind.change, "app.js"⟩).1 (by decide)⟩

/-- A `CrawlResult` delta: changed files (path ↦ opaque metadata), removed
paths, and optional per-root resume clocks. -/
structure CrawlResult where
  changedFiles : List (String × Nat)
  removedFiles : List String
  clocks : Option (List (String × String))
deriving DecidableEq, Repr

/-- The slice of `WatcherOptions` that the crawl and watch orchestration
reads.  `aborted` is the state of `abortSignal` at `crawl()` entry;
`healthCheckFileStem` is the `healthCheckFilePrefix` option of the source
(the cookie filename stem). -/
structure WatcherOptions where
  aborted : Bool
  computeSha1 : Bool
  enableSymlinks : Bool
  extensions : List String
  forceNodeFilesystemAPI : Bool
  healthCheckFileStem : String
  ignore : String → Bool
  rootDir : String
  roots : List String
  useWatchman : Bool

/-- The ignore predicate `crawl()` builds (Watcher.js lines 95-97):

    const ignore = (filePath) =>
      options.ignore(filePath) ||
      path.basename(filePath).startsWith(this._options.healthCheckFilePrefix);
-/
def crawlIgnore (options : WatcherOptions) (filePath : String) : Bool :=
  options.ignore filePath ||
    strStartsWith (pathBasename filePath) options.healthCheckFileStem

/-- The `CrawlerOptions` record handed to whichever crawl strategy runs
(Watcher.js lines 103-118).  The fields that are forwarded verbatim from
side-effecting collaborators (abortSignal, console, onStatus, perfLogger,
previousState) are omitted as opaque. -/
structure CrawlerOptions where
  computeSha1 : Bool
  includeSymlinks : Bool
  extensions : List String
  forceNodeFilesystemAPI : Bool
  ignore : String → Bool
  rootDir : String
  roots : List String

/-- Construction of the single `crawlerOptions` value both strategies
receive. -/
def mkCrawlerOptions (options : WatcherOptions) : CrawlerOptions :=
  { computeSha1 := options.computeSha1
    includeSymlinks := options.enableSymlinks
    extensions := options.extensions
    forceNodeFilesystemAPI := options.forceNodeFilesystemAPI
    ignore := crawlIgnore options
    rootDir := options.rootDir
    roots := options.roots }

/-- The `console.warn` diagnostic emitted before the node retry
(Watcher.js lines 123-131). -/
def watchmanCrawlWarning (error : JsError) : String :=
  "metro-file-map: Watchman crawl failed. Retrying once with node " ++
    "crawler.\n" ++
    "  Usually this happens when watchman isn\u0027t running. Create an " ++
    "empty `.watchmanconfig` file in your project\u0027s root folder or " ++
    "initialize a git or hg repository in your project.\n" ++
    "  " ++ JsError.toString error

/-- The combined failure raised when the node retry also fails
(Watcher.js lines 134-138): its message embeds both messages. -/
def crawlerRetryError (original retryFailure : JsError) : JsError :=
  ⟨"Crawler retry failed:\n" ++
    ("  Original error: " ++ original.message ++ "\n") ++
    ("  Retry error: " ++ retryFailure.message ++ "\n")⟩

/-- The `logEnd` continuation (Watcher.js lines 145-155): it logs counts to
the `debug` channel and returns the delta unchanged. -/
def logEnd (delta : CrawlResult) : CrawlResult :=
  delta

/-- Everything observable about one `crawl()` call: its outcome, the
`console.warn` diagnostics emitted, and the options each strategy was
invoked with (in invocation order). -/
structure CrawlRun where
  result : Except JsError CrawlResult
  warnings : List String
  watchmanCalls : List CrawlerOptions
  nodeCalls : List CrawlerOptions

/-- The `crawl()` orchestration (Watcher.js lines 91-164), with the two
crawl strategies passed as parameters (they are external collaborators):
abort check at entry, primary strategy selection by `useWatchman`,
single-level fallback from the watchman strategy to the node strategy with
one diagnostic, combined error when both fail, and direct error
propagation when the node strategy was primary. -/
def Watcher.crawl (options : WatcherOptions)
    (watchmanCrawl nodeCrawl : CrawlerOptions → Except JsError CrawlResult) :
    CrawlRun :=
  if options.aborted then
    { result := Except.error ⟨"This operation was aborted"⟩
      warnings := []
      watchmanCalls := []
      nodeCalls := [] }
  else
    let crawlerOptions := mkCrawlerOptions options
    if options.useWatchman then
      match watchmanCrawl crawlerOptions with
      | Except.ok delta =>
          { result := Except.ok (logEnd delta)
            warnings := []
            watchmanCalls := [crawlerOptions]
            nodeCalls := [] }
      | Except.error error =>
          match nodeCrawl crawlerOptions with
          | Except.ok delta =>
              { result := Except.ok (logEnd delta)
                warnings := [watchmanCrawlWarning error]
                watchmanCalls := [crawlerOptions]
                nodeCalls := [crawlerOptions] }
          | Except.error e =>
              { result := Except.error (crawlerRetryError error e)
                warnings := [watchmanCrawlWarning error]
                watchmanCalls := [crawlerOptions]
                nodeCalls := [crawlerOptions] }
    else
      match nodeCrawl crawlerOptions with
      | Except.ok delta =>
          { result := Except.ok (logEnd delta)
            warnings := []
            watchmanCalls := []
            nodeCalls := [crawlerOptions] }
      | Except.error error =>
          { result := Except.error error
            warnings := []
            watchmanCalls := []
            nodeCalls := [crawlerOptions] }

/-- C3.  When the watchman strategy is selected and fails, `crawl()` emits
exactly one diagnostic (naming the likely cause and embedding the original
error), invokes the node strategy exactly once with the very same options,
and — if that retry also fails — fails with a combined error whose message
contains both the original and the retry message; when the node strategy
was selected initially and fails, its error is propagated unchanged, with
no diagnostic and no watchman invocation. -/
theorem crawl_watchman_fallback_spec (options : WatcherOptions)
    (watchmanCrawl nodeCrawl : CrawlerOptions → Except JsError CrawlResult)
    (hna : options.aborted = false) :
    (options.useWatchman = true →
      ∀ e, watchmanCrawl (mkCrawlerOptions options) = Except.error e →
        (Watcher.crawl options watchmanCrawl nodeCrawl).warnings =
            [watchmanCrawlWarning e] ∧
        (Watcher.crawl options watchmanCrawl nodeCrawl).watchmanCalls =
            [mkCrawlerOptions options] ∧
        (Watcher.crawl options watchmanCrawl nodeCrawl).nodeCalls =
            [mkCrawlerOptions options] ∧
        (∀ e2, nodeCrawl (mkCrawlerOptions options) = Except.error e2 →
          (Watcher.crawl options watchmanCrawl nodeCrawl).result =
              Except.error (crawlerRetryError e e2) ∧
          ∃ s1 s2 s3, (crawlerRetryError e e2).message =
            s1 ++ e.message ++ s2 ++ e2.message ++ s3)) ∧
    (options.useWatchman = false →
      ∀ e, nodeCrawl (mkCrawlerOptions options) = Except.error e →
        (Watcher.crawl options watchmanCrawl nodeCrawl).result =
            Except.error e ∧
        (Watcher.crawl options watchmanCrawl nodeCrawl).warnings = [] ∧
        (Watcher.crawl options watchmanCrawl nodeCrawl).watchmanCalls = []) := by
  constructor
  · intro hw e he
    cases hnode : nodeCrawl (mkCrawlerOptions options) with
    | ok delta =>
      refine ⟨by simp [Watcher.crawl, hna, hw, he, hnode],
        by simp [Watcher.crawl, hna, hw, he, hnode],
        by simp [Watcher.crawl, hna, hw, he, hnode],
        fun e2 he2 => absurd he2 (by simp)⟩
    | error e2 =>
      refine ⟨by simp [Watcher.crawl, hna, hw, he, hnode],
        by simp [Watcher.crawl, hna, hw, he, hnode],
        by simp [Watcher.crawl, hna, hw, he, hnode],
        fun e2b he2 => ?_⟩
      have heq : e2 = e2b := by
        injection he2
      cases heq
      refine ⟨by simp [Watcher.crawl, hna, hw, he, hnode], ?_⟩
      refine ⟨"Crawler retry failed:\n" ++ "  Original error: ",
        "\n" ++ "  Retry error: ", "\n", ?_⟩
      apply String.ext
      simp [crawlerRetryError, String.data_append, List.append_assoc]
  · intro hw e he
    refine ⟨?_, ?_, ?_⟩ <;> simp [Watcher.crawl, hna, hw, he]

/-- Closed instantiation of `crawl_watchman_fallback_spec` on a watchman
failure followed by a node failure. -/
theorem crawl_watchman_fallback_spec_witness :
    (Watcher.crawl
        { aborted := false, computeSha1 := false, enableSymlinks := false,
          extensions := [], forceNodeFilesystemAPI := false,
          healthCheckFileStem := "hc", ignore := fun _ => false,
          rootDir := "/p", roots := ["/p"], useWatchman := true }
        (fun _ => Except.error ⟨"watchman down"⟩)
        (fun _ => Except.error ⟨"node down"⟩)).warnings =
      [watchmanCrawlWarning ⟨"watchman down"⟩] ∧
    (Watcher.crawl
        { aborted := false, computeSha1 := false, enableSymlinks := false,
          extensions := [], forceNodeFilesystemAPI := false,
          healthCheckFileStem := "hc", ignore := fun _ => false,
          rootDir := "/p", roots := ["/p"], useWatchman := true }
        (fun _ => Except.error ⟨"watchman down"⟩)
        (fun _ => Except.error ⟨"node down"⟩)).result =
      Except.error (crawlerRetryError ⟨"watchman down"⟩ ⟨"node down"⟩) := by
  have h := (crawl_watchman_fallback_spec
    { aborted := false, computeSha1 := false, enableSymlinks := false,
      extensions := [], forceNodeFilesystemAPI := false,
      healthCheckFileStem := "hc", ignore := fun _ => false,
      rootDir := "/p", roots := ["/p"], useWatchman := true }
    (fun _ => Except.error ⟨"watchman down"⟩)
    (fun _ => Except.error ⟨"node down"⟩) rfl).1 rfl ⟨"watchman down"⟩ rfl
  exact ⟨h.1, (h.2.2.2 ⟨"node down"⟩ rfl).1⟩

/-- C7.  When the watchman strategy rejects and the node fallback succeeds,
the `CrawlResult` that `crawl()` resolves with is identical in content
(changed files, removed files, clocks) to the node strategy's own result
for the same crawler options, and the logging step returns the delta
unchanged. -/
theorem crawl_fallback_refines_node (options : WatcherOptions)
    (watchmanCrawl nodeCrawl : CrawlerOptions → Except JsError CrawlResult)
    (hna : options.aborted = false) (hw : options.useWatchman = true)
    (e : JsError)
    (hwm : watchmanCrawl (mkCrawlerOptions options) = Except.error e)
    (r : CrawlResult)
    (hnd : nodeCrawl (mkCrawlerOptions options) = Except.ok r) :
    (∃ delta, (Watcher.crawl options watchmanCrawl nodeCrawl).result =
        Except.ok delta ∧
      delta.changedFiles = r.changedFiles ∧
      delta.removedFiles = r.removedFiles ∧
      delta.clocks = r.clocks) ∧
    logEnd r = r := by
  refine ⟨⟨logEnd r, ?_, rfl, rfl, rfl⟩, rfl⟩
  simp [Watcher.crawl, hna, hw, hwm, hnd]

/-- Closed instantiation of `crawl_fallback_refines_node`: the fallback's
delta is surfaced verbatim. -/
theorem crawl_fallback_refines_node_witness :
    ∃ delta, (Watcher.crawl
        { aborted := false, computeSha1 := false, enableSymlinks := false,
          extensions := [], forceNodeFilesystemAPI := false,
          healthCheckFileStem := "hc", ignore := fun _ => false,
          rootDir := "/p", roots := ["/p"], useWatchman := true }
        (fun _ => Except.error ⟨"watchman down"⟩)
        (fun _ => Except.ok ⟨[("/p/a.js", 1)], [], none⟩)).result =
      Except.ok delta ∧
      delta.changedFiles = [("/p/a.js", 1)] ∧
      delta.removedFiles = [] ∧
      delta.clocks = none := by
  obtain ⟨⟨delta, hd, h1, h2, h3⟩, -⟩ := crawl_fallback_refines_node
    { aborted := false, computeSha1 := false, enableSymlinks := false,
      extensions := [], forceNodeFilesystemAPI := false,
      healthCheckFileStem := "hc", ignore := fun _ => false,
      rootDir := "/p", roots := ["/p"], useWatchman := true }
    (fun _ => Except.error ⟨"watchman down"⟩)
    (fun _ => Except.ok ⟨[("/p/a.js", 1)], [], none⟩)
    rfl rfl ⟨"watchman down"⟩ rfl ⟨[("/p/a.js", 1)], [], none⟩ rfl
  exact ⟨delta, hd, h1, h2, h3⟩

/-- C9.  The ignore predicate `crawl()` hands to either strategy extends the
caller-configured ignores with every path whose basename starts with the
health-check stem; hence, for any crawl strategy that honors its ignore
predicate (the crawl-strategy contract), the returned delta never lists a
health-check cookie file among its changed files. -/
theorem crawlIgnore_excludes_health_check_files (options : WatcherOptions) :
    (∀ filePath,
      strStartsWith (pathBasename filePath) options.healthCheckFileStem =
          true →
        crawlIgnore options filePath = true) ∧
    (∀ filePath, options.ignore filePath = true →
        crawlIgnore options filePath = true) ∧
    (mkCrawlerOptions options).ignore = crawlIgnore options ∧
    (∀ delta : CrawlResult,
      (∀ p meta, (p, meta) ∈ delta.changedFiles →
        crawlIgnore options p = false) →
      ∀ p meta, (p, meta) ∈ delta.changedFiles →
        strStartsWith (pathBasename p) options.healthCheckFileStem =
          false) := by
  refine ⟨fun filePath h => ?_, fun filePath h => ?_, rfl,
    fun delta hdelta p meta hp => ?_⟩
  · simp [crawlIgnore, h]
  · simp [crawlIgnore, h]
  · have := hdelta p meta hp
    simp only [crawlIgnore, Bool.or_eq_false_iff] at this
    exact this.2

/-- Closed instantiation of `crawlIgnore_excludes_health_check_files`: a
cookie file in a subdirectory is excluded even though the caller's own
ignore accepts it. -/
theorem crawlIgnore_excludes_health_check_files_witness :
    crawlIgnore
        { aborted := false, computeSha1 := false, enableSymlinks := false,
          extensions := [], forceNodeFilesystemAPI := false,
          healthCheckFileStem := "hc", ignore := fun _ => false,
          rootDir := "/p", roots := ["/p"], useWatchman := true }
        "sub/hc-123-0-0" = true :=
  (crawlIgnore_excludes_health_check_files
    { aborted := false, computeSha1 := false, enableSymlinks := false,
      extensions := [], forceNodeFilesystemAPI := false,
      healthCheckFileStem := "hc", ignore := fun _ => false,
      rootDir := "/p", roots := ["/p"], useWatchman := true }).1
    "sub/hc-123-0-0" (by decide)

/-- `MAX_WAIT_TIME` (Watcher.js line 37): startup handshake bound in
milliseconds. -/
def MAX_WAIT_TIME : Nat := 240000

/-- What one root's backend does during startup: its constructor throws, it
fires `ready` at time `t` (milliseconds after `watch()` was called), or it
never fires `ready`. -/
inductive RootStartup
  | constructError (error : JsError)
  | readyAt (t : Nat)
  | neverReady
deriving DecidableEq, Repr

/-- One root's behaviour during a `watch()` session: its startup outcome
and the events its backend emits after firing `ready`. -/
structure RootBehavior where
  startup : RootStartup
  events : List ChangeEvent
deriving DecidableEq, Repr

/-- Whether a root's per-root promise resolves: `ready` must fire strictly
before the `setTimeout(..., MAX_WAIT_TIME)` rejection (Watcher.js lines
202-227). -/
def rootReadyInTime : RootStartup → Bool
  | RootStartup.readyAt t => decide (t < MAX_WAIT_TIME)
  | _ => false

/-- The error a throwing backend constructor contributes, if any. -/
def startupError : RootStartup → Option JsError
  | RootStartup.constructError e => some e
  | _ => none

/-- `this._options.roots.map(createWatcherBackend)` constructs backends
synchronously in root order; the first throwing constructor aborts the
loop and `watch()` rejects with that error. -/
def firstConstructError : List RootBehavior → Option JsError
  | [] => none
  | r :: rest =>
    match startupError r.startup with
    | some e => some e
    | none => firstConstructError rest

/-- The outcome of `await Promise.all(roots.map(createWatcherBackend))`
(Watcher.js lines 230-232): a construction error propagates as-is;
otherwise the call resolves iff every root fired `ready` within
`MAX_WAIT_TIME`, and rejects with `Failed to start watch mode.` as soon as
any root's startup timer wins. -/
def watchStartupResult (roots : List RootBehavior) : Except JsError Unit :=
  match firstConstructError roots with
  | some e => Except.error e
  | none =>
    if roots.all (fun r => rootReadyInTime r.startup) then Except.ok ()
    else Except.error ⟨"Failed to start watch mode."⟩

/-- The sublist of a root's events the demultiplexer forwards to
`onChange`. -/
def forwardedEvents (stem : String) (events : List ChangeEvent) :
    List ChangeEvent :=
  events.filterMap fun c =>
    match routeEvent stem c with
    | RoutedAction.forward c2 => some c2
    | _ => none

/-- The events `onChange` receives during a session with the given root
behaviours.  Every constructed root installs its `on('all')` subscription
the moment its own `ready` fires — nothing awaits the session-wide
`Promise.all` — so a root that fired `ready` (even after the timeout made
its promise reject) delivers its forwarded events regardless of the other
roots; roots at and after a throwing constructor are never constructed. -/
def deliveredToOnChange (stem : String) : List RootBehavior → List ChangeEvent
  | [] => []
  | r :: rest =>
    match startupError r.startup with
    | some _ => []
    | none =>
      (match r.startup with
        | RootStartup.readyAt _ => forwardedEvents stem r.events
        | _ => []) ++ deliveredToOnChange stem rest

theorem firstConstructError_none_of_all_ready (roots : List RootBehavior)
    (h : ∀ r ∈ roots, rootReadyInTime r.startup = true) :
    firstConstructError roots = none := by
  induction roots with
  | nil => rfl
  | cons r rest ih =>
    have hr := h r (List.mem_cons_self r rest)
    have hse : startupError r.startup = none := by
      cases hs : r.startup with
      | constructError e => rw [hs] at hr; simp [rootReadyInTime] at hr
      | readyAt t => simp [startupError]
      | neverReady => simp [startupError]
    simp only [firstConstructError, hse]
    exact ih fun x hx => h x (List.mem_cons_of_mem _ hx)

/-- C4, counterexample.  A session with a never-ready second root makes
`watch()` reject — yet the first root, already ready, has installed its
event subscription and its events reach `onChange`.  This refutes the
claim's final clause ("no events are delivered to onChange for a session
whose watch() rejected"). -/
theorem watch_reject_may_still_deliver_events :
    watchStartupResult
        [⟨RootStartup.readyAt 0, [⟨EventKind.add, "a.js"⟩]⟩,
          ⟨RootStartup.neverReady, []⟩] ≠ Except.ok () ∧
    deliveredToOnChange "hc"
        [⟨RootStartup.readyAt 0, [⟨EventKind.add, "a.js"⟩]⟩,
          ⟨RootStartup.neverReady, []⟩] =
      [⟨EventKind.add, "a.js"⟩] := by
  constructor
  · intro h
    simp [watchStartupResult, firstConstructError, startupError,
      rootReadyInTime, MAX_WAIT_TIME] at h
  · decide

/-- C4, amended.  `watch()` resolves iff every configured root's backend
constructs successfully and fires `ready` within the 240000 ms bound;
otherwise the whole call rejects, with no per-root isolation or partial
success.  However, roots whose backends did become ready may still deliver
events to `onChange` even when `watch()` rejects. -/
theorem watch_all_or_nothing (roots : List RootBehavior) :
    (watchStartupResult roots = Except.ok () ↔
      ∀ r ∈ roots, rootReadyInTime r.startup = true) ∧
    (∃ bad : List RootBehavior,
      watchStartupResult bad ≠ Except.ok () ∧
      deliveredToOnChange "hc" bad ≠ []) := by
  constructor
  · constructor
    · intro h
      unfold watchStartupResult at h
      cases hfc : firstConstructError roots with
      | some e => rw [hfc] at h; exact absurd h (by simp)
      | none =>
        rw [hfc] at h
        by_cases hall : roots.all (fun r => rootReadyInTime r.startup) = true
        · intro r hr
          exact List.all_eq_true.mp hall r hr
        · rw [if_neg hall] at h
          exact absurd h (by simp)
    · intro h
      unfold watchStartupResult
      rw [firstConstructError_none_of_all_ready roots h]
      exact if_pos (List.all_eq_true.mpr h)
  · refine ⟨[⟨RootStartup.readyAt 0, [⟨EventKind.add, "a.js"⟩]⟩,
      ⟨RootStartup.neverReady, []⟩], ?_, by decide⟩
    intro h
    simp [watchStartupResult, firstConstructError, startupError,
      rootReadyInTime, MAX_WAIT_TIME] at h

/-- Closed instantiation of `watch_all_or_nothing`: a session whose only
root is ready at 5 ms resolves. -/
theorem watch_all_or_nothing_witness :
    watchStartupResult [⟨RootStartup.readyAt 5, []⟩] = Except.ok () :=
  (watch_all_or_nothing [⟨RootStartup.readyAt 5, []⟩]).1.mpr (by decide)

/-- The decimal digit characters. -/
def digitChar : Nat → Char
  | 0 => '0'
  | 1 => '1'
  | 2 => '2'
  | 3 => '3'
  | 4 => '4'
  | 5 => '5'
  | 6 => '6'
  | 7 => '7'
  | 8 => '8'
  | 9 => '9'
  | _ => '*'

/-- Little-endian decimal digits of `n`, with explicit fuel to make the
recursion structural; `decimalDigitsAux n n` computes the digits of `n`. -/
def decimalDigitsAux : Nat → Nat → List Nat
  | 0, _ => []
  | _ + 1, 0 => []
  | fuel + 1, n + 1 => (n + 1) % 10 :: decimalDigitsAux fuel ((n + 1) / 10)

/-- Models the JS number-to-string coercion `'' + n` / `String(n)` for a
nonnegative integer below 10^21: its decimal digit string. -/
def jsNatToString (n : Nat) : String :=
  if n = 0 then "0"
  else ⟨((decimalDigitsAux n n).map digitChar).reverse⟩

theorem decimalDigitsAux_eq_digits :
    ∀ fuel n, n ≤ fuel → decimalDigitsAux fuel n = Nat.digits 10 n := by
  intro fuel
  induction fuel with
  | zero =>
    intro n hn
    interval_cases n
    simp [decimalDigitsAux]
  | succ f ih =>
    intro n hn
    cases n with
    | zero => simp [decimalDigitsAux]
    | succ m =>
      rw [Nat.digits_def' (by norm_num : (1:ℕ) < 10) (Nat.succ_pos m)]
      simp only [decimalDigitsAux]
      congr 1
      have hdiv : (m + 1) / 10 < m + 1 := Nat.div_lt_self (Nat.succ_pos m) (by norm_num)
      exact ih _ (by omega)

theorem digitChar_inj (a b : Nat) (ha : a < 10) (hb : b < 10)
    (h : digitChar a = digitChar b) : a = b := by
  interval_cases a <;> interval_cases b <;> revert h <;> decide

theorem map_digitChar_inj (l1 : List Nat) : ∀ l2 : List Nat,
    (∀ d ∈ l1, d < 10) → (∀ d ∈ l2, d < 10) →
    l1.map digitChar = l2.map digitChar → l1 = l2 := by
  induction l1 with
  | nil =>
    intro l2 _ _ h
    cases l2 with
    | nil => rfl
    | cons b l2 => simp at h
  | cons a l1 ih =>
    intro l2 h1 h2 h
    cases l2 with
    | nil => simp at h
    | cons b l2 =>
      simp only [List.map_cons, List.cons.injEq] at h
      have hab := digitChar_inj a b (h1 a (List.mem_cons_self a l1))
        (h2 b (List.mem_cons_self b l2)) h.1
      subst hab
      rw [ih l2 (fun d hd => h1 d (List.mem_cons_of_mem _ hd))
        (fun d hd => h2 d (List.mem_cons_of_mem _ hd)) h.2]

theorem map_digitChar_digits_eq_zero (b : Nat)
    (h : (Nat.digits 10 b).map digitChar = ['0']) : b = 0 := by
  have hd : Nat.digits 10 b = [0] := by
    apply map_digitChar_inj (Nat.digits 10 b) [0]
      (fun d hd => Nat.digits_lt_base (by norm_num) hd)
      (fun d hd => by simp at hd; omega)
    simpa [digitChar] using h
  have := Nat.ofDigits_digits 10 b
  rw [hd] at this
  simpa [Nat.ofDigits] using this.symm

theorem jsNatToString_inj (a b : Nat) (h : jsNatToString a = jsNatToString b) :
    a = b := by
  unfold jsNatToString at h
  by_cases ha : a = 0 <;> by_cases hb : b = 0
  · omega
  · rw [if_pos ha, if_neg hb, decimalDigitsAux_eq_digits b b le_rfl] at h
    have hdata : (['0'] : List Char) =
        ((Nat.digits 10 b).map digitChar).reverse := congrArg String.data h
    have hrev : (Nat.digits 10 b).map digitChar = ['0'] := by
      have := congrArg List.reverse hdata
      simpa using this.symm
    exact absurd (map_digitChar_digits_eq_zero b hrev) hb
  · rw [if_neg ha, if_pos hb, decimalDigitsAux_eq_digits a a le_rfl] at h
    have hdata : ((Nat.digits 10 a).map digitChar).reverse =
        (['0'] : List Char) := congrArg String.data h
    have hrev : (Nat.digits 10 a).map digitChar = ['0'] := by
      have := congrArg List.reverse hdata
      simpa using this
    exact absurd (map_digitChar_digits_eq_zero a hrev) ha
  · rw [if_neg ha, if_neg hb, decimalDigitsAux_eq_digits a a le_rfl,
      decimalDigitsAux_eq_digits b b le_rfl] at h
    have hdata : ((Nat.digits 10 a).map digitChar).reverse =
        ((Nat.digits 10 b).map digitChar).reverse := congrArg String.data h
    have hmap := List.reverse_injective hdata
    have hdig := map_digitChar_inj (Nat.digits 10 a) (Nat.digits 10 b)
      (fun d hd => Nat.digits_lt_base (by norm_num) hd)
      (fun d hd => Nat.digits_lt_base (by norm_num) hd) hmap
    rw [← Nat.ofDigits_digits 10 a, ← Nat.ofDigits_digits 10 b, hdig]

theorem string_append_left_cancel (s t u : String) (h : s ++ t = s ++ u) :
    t = u := by
  have hd : (s ++ t).data = (s ++ u).data := by rw [h]
  simp [String.data_append] at hd
  exact String.ext hd

/-- The cookie basename generated at `checkHealth` entry (Watcher.js lines
254-261):

    this._options.healthCheckFilePrefix + '-' + process.pid + '-' +
      this._instanceId + '-' + healthCheckId
-/
def healthCheckBasename (stem : String) (pid instanceId healthCheckId : Nat) :
    String :=
  stem ++ "-" ++ jsNatToString pid ++ "-" ++ jsNatToString instanceId ++
    "-" ++ jsNatToString healthCheckId

/-- Within one session (fixed stem, pid, instance id), distinct check ids
give distinct cookie basenames. -/
theorem healthCheckBasename_inj (stem : String) (pid instanceId id1 id2 : Nat)
    (h : healthCheckBasename stem pid instanceId id1 =
      healthCheckBasename stem pid instanceId id2) : id1 = id2 := by
  unfold healthCheckBasename at h
  exact jsNatToString_inj id1 id2 (string_append_left_cancel _ _ _ h)

/-- The `_pendingHealthChecks: Map<string, () => void>` field, modelled as
an insertion-ordered association list from cookie basename to whether the
stored resolve closure has already been invoked (`false` = still pending,
`true` = its promise is resolved). -/
abbrev PendingHealthChecks := List (String × Bool)

/-- JS `Map.prototype.get` on string keys. -/
def mapGet : PendingHealthChecks → String → Option Bool
  | [], _ => none
  | p :: rest, k => if p.1 = k then some p.2 else mapGet rest k

/-- JS `Map.prototype.set` on string keys: an existing key keeps its
position and gets the new value; a new key is appended. -/
def mapSet : PendingHealthChecks → String → Bool → PendingHealthChecks
  | [], k, v => [(k, v)]
  | p :: rest, k, v => if p.1 = k then (k, v) :: rest else p :: mapSet rest k v

/-- JS `Map.prototype.delete` on string keys. -/
def mapDelete : PendingHealthChecks → String → PendingHealthChecks
  | [], _ => []
  | p :: rest, k => if p.1 = k then mapDelete rest k else p :: mapDelete rest k

/-- `this._pendingHealthChecks.set(basename, resolve)` at `checkHealth`
entry (Watcher.js line 291): the fresh resolve closure is not yet
invoked. -/
def registerHealthCheck (m : PendingHealthChecks) (basename : String) :
    PendingHealthChecks :=
  mapSet m basename false

/-- `this._pendingHealthChecks.delete(basename)` after the race settles
(Watcher.js line 306); it runs unconditionally, whatever the outcome
was. -/
def completeHealthCheck (m : PendingHealthChecks) (basename : String) :
    PendingHealthChecks :=
  mapDelete m basename

/-- `_handleHealthCheckObservation` (Watcher.js lines 235-241): look up the
pending resolve closure for the observed basename; if there is none,
return; otherwise invoke it (resolving the observation promise). -/
def handleHealthCheckObservation (m : PendingHealthChecks)
    (basename : String) : PendingHealthChecks :=
  match mapGet m basename with
  | none => m
  | some _ => mapSet m basename true

/-- The basenames currently registered, in insertion order. -/
def registryKeys (m : PendingHealthChecks) : List String :=
  m.map Prod.fst

theorem mapGet_mapSet_self (m : PendingHealthChecks) (k : String) (v : Bool) :
    mapGet (mapSet m k v) k = some v := by
  induction m with
  | nil => simp [mapSet, mapGet]
  | cons p rest ih =>
    by_cases hp : p.1 = k
    · simp [mapSet, mapGet, hp]
    · simp [mapSet, mapGet, hp, ih]

theorem mapGet_mapSet_ne (m : PendingHealthChecks) (k k2 : String) (v : Bool)
    (h : k ≠ k2) : mapGet (mapSet m k v) k2 = mapGet m k2 := by
  induction m with
  | nil => simp [mapSet, mapGet, h]
  | cons p rest ih =>
    by_cases hp : p.1 = k
    · simp [mapSet, mapGet, hp, h, Ne.symm h]
    · by_cases hp2 : p.1 = k2
      · simp [mapSet, mapGet, hp, hp2, Ne.symm h]
      · simp [mapSet, mapGet, hp, hp2, ih]

theorem mapGet_mapDelete_self (m : PendingHealthChecks) (k : String) :
    mapGet (mapDelete m k) k = none := by
  induction m with
  | nil => simp [mapDelete, mapGet]
  | cons p rest ih =>
    by_cases hp : p.1 = k
    · simp [mapDelete, hp, ih]
    · simp [mapDelete, mapGet, hp, ih]

theorem mapGet_mapDelete_ne (m : PendingHealthChecks) (k k2 : String)
    (h : k ≠ k2) : mapGet (mapDelete m k) k2 = mapGet m k2 := by
  induction m with
  | nil => simp [mapDelete, mapGet]
  | cons p rest ih =>
    by_cases hp : p.1 = k
    · have hp2 : ¬p.1 = k2 := by rw [hp]; exact h
      simp [mapDelete, mapGet, hp, hp2, h, ih]
    · by_cases hp2 : p.1 = k2
      · simp [mapDelete, mapGet, hp, hp2, Ne.symm h]
      · simp [mapDelete, mapGet, hp, hp2, ih]

theorem mem_registryKeys_mapSet (m : PendingHealthChecks) (k : String)
    (v : Bool) (b : String) :
    b ∈ registryKeys (mapSet m k v) ↔ b ∈ registryKeys m ∨ b = k := by
  induction m with
  | nil => simp [mapSet, registryKeys]
  | cons p rest ih =>
    by_cases hp : p.1 = k
    · simp only [mapSet, hp, if_pos]
      simp [registryKeys, hp]
      tauto
    · simp only [mapSet, if_neg hp]
      simp [registryKeys] at ih ⊢
      rw [ih]
      tauto

theorem nodup_registryKeys_mapSet (m : PendingHealthChecks) (k : String)
    (v : Bool) (h : (registryKeys m).Nodup) :
    (registryKeys (mapSet m k v)).Nodup := by
  induction m with
  | nil => simp [mapSet, registryKeys]
  | cons p rest ih =>
    simp only [registryKeys, List.map_cons, List.nodup_cons] at h
    by_cases hp : p.1 = k
    · simp only [mapSet, hp, if_pos]
      simp only [registryKeys, List.map_cons, List.nodup_cons]
      exact ⟨by rw [← hp]; exact h.1, h.2⟩
    · simp only [mapSet, if_neg hp]
      simp only [registryKeys, List.map_cons, List.nodup_cons]
      refine ⟨?_, ih h.2⟩
      intro hmem
      rcases (mem_registryKeys_mapSet rest k v p.1).mp hmem with hm | he
      · exact h.1 hm
      · exact hp he

theorem mem_registryKeys_mapDelete (m : PendingHealthChecks) (k b : String)
    (h : b ∈ registryKeys (mapDelete m k)) : b ∈ registryKeys m := by
  induction m with
  | nil => simpa [mapDelete] using h
  | cons p rest ih =>
    by_cases hp : p.1 = k
    · simp only [mapDelete, hp, if_pos] at h
      simp [registryKeys]
      exact Or.inr (by simpa [registryKeys] using ih h)
    · simp only [mapDelete, if_neg hp, registryKeys, List.map_cons,
        List.mem_cons] at h
      simp only [registryKeys, List.map_cons, List.mem_cons]
      rcases h with h | h
      · exact Or.inl h
      · exact Or.inr (by simpa [registryKeys] using ih (by simpa [registryKeys] using h))

theorem nodup_registryKeys_mapDelete (m : PendingHealthChecks) (k : String)
    (h : (registryKeys m).Nodup) : (registryKeys (mapDelete m k)).Nodup := by
  induction m with
  | nil => simp [mapDelete, registryKeys]
  | cons p rest ih =>
    simp only [registryKeys, List.map_cons, List.nodup_cons] at h
    by_cases hp : p.1 = k
    · simp only [mapDelete, hp, if_pos]
      exact ih h.2
    · simp only [mapDelete, if_neg hp, registryKeys, List.map_cons,
        List.nodup_cons]
      exact ⟨fun hmem => h.1 (mem_registryKeys_mapDelete rest k p.1 hmem),
        ih h.2⟩

/-- C6.  The pending-health-check registry: registering at `checkHealth`
entry creates the (single) entry for that call's basename; the
unconditional deletion after the race removes it; registering, deleting or
observing one basename never changes what is registered under a different
basename; all three operations preserve key uniqueness (a JS `Map` holds
at most one entry per key); and within a session distinct check ids yield
distinct basenames, so concurrent `checkHealth` calls touch distinct
keys. -/
theorem pendingHealthChecks_registry_isolation (m : PendingHealthChecks)
    (b b2 : String) (hne : b ≠ b2) (stem : String) (pid inst : Nat) :
    mapGet (registerHealthCheck m b) b = some false ∧
    mapGet (completeHealthCheck m b) b = none ∧
    mapGet (registerHealthCheck m b) b2 = mapGet m b2 ∧
    mapGet (completeHealthCheck m b) b2 = mapGet m b2 ∧
    mapGet (handleHealthCheckObservation m b) b2 = mapGet m b2 ∧
    ((registryKeys m).Nodup →
      (registryKeys (registerHealthCheck m b)).Nodup ∧
      (registryKeys (completeHealthCheck m b)).Nodup ∧
      (registryKeys (handleHealthCheckObservation m b)).Nodup) ∧
    (∀ id1 id2 : Nat, id1 ≠ id2 →
      healthCheckBasename stem pid inst id1 ≠
        healthCheckBasename stem pid inst id2) := by
  refine ⟨mapGet_mapSet_self m b false, mapGet_mapDelete_self m b,
    mapGet_mapSet_ne m b b2 false hne, mapGet_mapDelete_ne m b b2 hne, ?_,
    fun hnd => ⟨nodup_registryKeys_mapSet m b false hnd,
      nodup_registryKeys_mapDelete m b hnd, ?_⟩,
    fun id1 id2 hid heq =>
      hid (healthCheckBasename_inj stem pid inst id1 id2 heq)⟩
  · unfold handleHealthCheckObservation
    cases mapGet m b with
    | none => rfl
    | some r => exact mapGet_mapSet_ne m b b2 true hne
  · unfold handleHealthCheckObservation
    cases mapGet m b with
    | none => exact hnd
    | some r => exact nodup_registryKeys_mapSet m b true hnd

/-- Closed instantiation of `pendingHealthChecks_registry_isolation` on a
registry holding a different pending basename. -/
theorem pendingHealthChecks_registry_isolation_witness :
    mapGet (registerHealthCheck [("hc-1-0-1", false)] "hc-1-0-0")
        "hc-1-0-0" = some false ∧
    mapGet (registerHealthCheck [("hc-1-0-1", false)] "hc-1-0-0")
        "hc-1-0-1" = mapGet [("hc-1-0-1", false)] "hc-1-0-1" := by
  have h := pendingHealthChecks_registry_isolation [("hc-1-0-1", false)]
    "hc-1-0-0" "hc-1-0-1" (by decide) "hc" 1 0
  exact ⟨h.1, h.2.2.1⟩

/-- C10.  A health-check observation for a basename with no pending entry
is a silent no-op: the handler returns before invoking anything, the
registry is unchanged, and no pending check's entry or outcome is
affected. -/
theorem handleHealthCheckObservation_stray_noop (m : PendingHealthChecks)
    (basename : String) (h : mapGet m basename = none) :
    handleHealthCheckObservation m basename = m ∧
    ∀ b2, mapGet (handleHealthCheckObservation m basename) b2 =
      mapGet m b2 := by
  have hm : handleHealthCheckObservation m basename = m := by
    unfold handleHealthCheckObservation
    rw [h]
  exact ⟨hm, fun b2 => by rw [hm]⟩

/-- Closed instantiation of `handleHealthCheckObservation_stray_noop`: a
stray cookie event (for an already-resolved or foreign basename) leaves a
registry with one unrelated pending check intact. -/
theorem handleHealthCheckObservation_stray_noop_witness :
    handleHealthCheckObservation [("hc-1-0-0", false)] "hc-9-9-9" =
      [("hc-1-0-0", false)] :=
  (handleHealthCheckObservation_stray_noop [("hc-1-0-0", false)] "hc-9-9-9"
    (by decide)).1

/-- `Number.MAX_SAFE_INTEGER`. -/
def MAX_SAFE_INTEGER : Nat := 2 ^ 53 - 1

/-- The new `_nextHealthCheckId` field value after one `checkHealth` entry
that took `healthCheckId` (Watcher.js lines 249-252):

    const healthCheckId = this._nextHealthCheckId++;
    if (healthCheckId === Number.MAX_SAFE_INTEGER) {
      this._nextHealthCheckId = 0;
    }

`Nat` is exact here: the only increment past `MAX_SAFE_INTEGER` produces
`2^53`, still an exact JS float, and is immediately replaced by `0`. -/
def nextHealthCheckIdAfter (healthCheckId : Nat) : Nat :=
  if healthCheckId = MAX_SAFE_INTEGER then 0 else healthCheckId + 1

/-- The id taken by the `k`-th (0-based) `checkHealth` call of a session:
the `_nextHealthCheckId` field starts at `0` and each call takes the
current value. -/
def healthCheckIdOfCall : Nat → Nat
  | 0 => 0
  | k + 1 => nextHealthCheckIdAfter (healthCheckIdOfCall k)

theorem healthCheckIdOfCall_eq_mod (k : Nat) :
    healthCheckIdOfCall k = k % (MAX_SAFE_INTEGER + 1) := by
  have h2 : (2:ℕ) ^ 53 = 9007199254740992 := by norm_num
  induction k with
  | zero => simp [healthCheckIdOfCall]
  | succ k ih =>
    simp only [healthCheckIdOfCall, nextHealthCheckIdAfter, ih,
      MAX_SAFE_INTEGER, h2]
    split <;> omega

/-- C8.  The per-session health-check id is `k % 2^53` at the `k`-th call:
it increases by exactly 1 at every call while below
`Number.MAX_SAFE_INTEGER`, the call that took `MAX_SAFE_INTEGER` is
followed by id `0` (the wrap is a total, error-free step), and any two
calls less than a full period apart — in particular the two calls
surrounding the wrap — take distinct ids and therefore produce distinct
cookie basenames, so no two simultaneously-pending checks can share a
basename. -/
theorem healthCheckId_wrap_spec :
    (∀ k, healthCheckIdOfCall k = k % (MAX_SAFE_INTEGER + 1)) ∧
    (∀ k, healthCheckIdOfCall k < MAX_SAFE_INTEGER →
      healthCheckIdOfCall (k + 1) = healthCheckIdOfCall k + 1) ∧
    (∀ k, healthCheckIdOfCall k = MAX_SAFE_INTEGER →
      healthCheckIdOfCall (k + 1) = 0) ∧
    (∀ i j, i < j → j < i + (MAX_SAFE_INTEGER + 1) →
      healthCheckIdOfCall i ≠ healthCheckIdOfCall j) ∧
    (∀ stem pid inst i j,
      healthCheckIdOfCall i ≠ healthCheckIdOfCall j →
      healthCheckBasename stem pid inst (healthCheckIdOfCall i) ≠
        healthCheckBasename stem pid inst (healthCheckIdOfCall j)) := by
  have h2 : (2:ℕ) ^ 53 = 9007199254740992 := by norm_num
  refine ⟨healthCheckIdOfCall_eq_mod, fun k h => ?_, fun k h => ?_,
    fun i j hij hper => ?_,
    fun stem pid inst i j hne heq =>
      hne (healthCheckBasename_inj stem pid inst _ _ heq)⟩
  · simp only [healthCheckIdOfCall, nextHealthCheckIdAfter]
    rw [if_neg (by omega)]
  · simp only [healthCheckIdOfCall, nextHealthCheckIdAfter]
    rw [if_pos h]
  · rw [healthCheckIdOfCall_eq_mod, healthCheckIdOfCall_eq_mod]
    simp only [MAX_SAFE_INTEGER, h2] at hper ⊢
    omega

/-- Closed instantiation of `healthCheckId_wrap_spec`: the second call's id
is the first's plus one, and the two ids name distinct cookie files. -/
theorem healthCheckId_wrap_spec_witness :
    healthCheckIdOfCall 1 = healthCheckIdOfCall 0 + 1 ∧
    healthCheckBasename "hc" 7 0 (healthCheckIdOfCall 0) ≠
      healthCheckBasename "hc" 7 0 (healthCheckIdOfCall 1) :=
  ⟨healthCheckId_wrap_spec.2.1 0 (by decide),
    healthCheckId_wrap_spec.2.2.2.2 "hc" 7 0 0 1 (by decide)⟩

end MetroFileMap
